import Mathlib

set_option maxHeartbeats 1000000

/-!
Verification development for the RMB repository.

The repository holds two Python source files:

* `aster/eval_util.py` — a checkpoint-evaluation loop (`run_checkpoint_once`,
  `repeated_checkpoint_run`, `evaluate_recognition_results`);
* `ctpn-crnn/crnn/predict.py` — a one-shot CRNN batch-inference script
  (`get_images` plus the `__main__` CSV-writing loop).

Below is a shallow embedding of both files.  External framework behaviour
(TensorFlow session runs, checkpoint resolution, wall-clock time, the PyTorch
model) is passed in as explicit parameters (per-batch outcomes, a
checkpoint-path oracle per polling iteration, per-iteration elapsed time, a
recognition function), and observable side effects (session lifecycle, queue
runners, metric writes, sleeps) are recorded as explicit event traces.
-/

namespace RMB

namespace EvalUtil

/-- A `result_dict`: one batch's mapping from tensor keys to evaluated values
(values abstracted as `α`).  Modelled as an association list in insertion
order, mirroring Python dict iteration order. -/
abbrev ResultDict (α : Type) := List (String × α)

/-- `result_lists`: mapping from result-field names to the accumulated
per-batch value sequences. -/
abbrev ResultLists (α : Type) := List (String × List α)

/-- Outcome of one attempted batch, i.e. of
`sess.run([tensor_dict, update_op])` at a given batch index:
a successful result dict, a caught `tf.errors.InvalidArgumentError`
(transient, batch skipped), or `tf.errors.OutOfRangeError`
(input stream exhausted). -/
inductive BatchStep (α : Type) where
  | ok (d : ResultDict α)
  | invalidArgument
  | outOfRange
deriving DecidableEq

/-- The `counters` dict of `run_checkpoint_once`. -/
structure Counters where
  success : Nat
  skipped : Nat
deriving DecidableEq

/-- Observable side effects of `run_checkpoint_once`, in program order:
`sessionOpen` is `tf.Session(...)` (line 135), `initOps` the initializer run
(lines 136-139), `restoreDone` the restore (line 141 or 145-147),
`saveGraphDef` the `tf.train.write_graph` call, `queueStart`/`queueStop` the
enter/exit of `tf.contrib.slim.queues.QueueRunners(sess)`, `runBatch i` one
iteration of the batch loop, `aggregateCall` the call to
`aggregated_result_processor`, `metricsWritten` the `write_metrics` call, and
`sessionClose` the final `sess.close()`. -/
inductive Event where
  | sessionOpen
  | initOps
  | restoreDone
  | saveGraphDef
  | queueStart
  | runBatch (i : Nat)
  | aggregateCall
  | metricsWritten
  | queueStop
  | sessionClose
deriving DecidableEq

/-- Exceptions `run_checkpoint_once` can propagate in this model: an explicit
`ValueError` raised by its argument checks, or an exception raised by the
aggregation function inside the `finally:` block. -/
inductive RunError where
  | valueError (msg : String)
  | aggError (msg : String)
deriving DecidableEq

/-- The arguments of `run_checkpoint_once` together with the environment it
runs in.  `stream i` is the outcome of the i-th batch's
`sess.run([tensor_dict, update_op])`; `otherMetricsVals` is the value
`sess.run(metric_names_to_values)` would produce (`none` models the argument
`metric_names_to_values=None`).  `hasRestoreFn` is whether `restore_fn` is
given.  The default `batch_processor=None` path is modelled. -/
structure RunConfig (α : Type) where
  tensorKeys : List String
  keysToExclude : List String
  numBatches : Nat
  stream : Nat → BatchStep α
  checkpointDirs : List String
  hasRestoreFn : Bool
  saveGraph : Bool
  saveGraphDir : String
  otherMetricsVals : Option (List (String × Int))

/-- `valid_keys = list(set(tensor_dict.keys()) - set(keys_to_exclude_from_results))`
(line 152).  Keys of a Python dict are unique; the set difference is modelled
as an order-preserving filter. -/
def validKeys (cfg : RunConfig α) : List String :=
  cfg.tensorKeys.filter (fun k => ¬ k ∈ cfg.keysToExclude)

/-- State carried through the batch loop of `run_checkpoint_once`. -/
structure LoopState (α : Type) where
  resultLists : ResultLists α
  counters : Counters
deriving DecidableEq

/-- `result_lists = {key: [] for key in valid_keys}` and
`counters = {'skipped': 0, 'success': 0}` (lines 153-154). -/
def initLoopState (valid : List String) : LoopState α :=
  { resultLists := valid.map (fun k => (k, [])),
    counters := { success := 0, skipped := 0 } }

/-- `for key in result_dict: if key in valid_keys: result_lists[key].append(result_dict[key])`
(lines 172-174). -/
def appendResult (valid : List String) (d : ResultDict α) (rl : ResultLists α) :
    ResultLists α :=
  d.foldl (fun acc kv =>
    if kv.1 ∈ valid then
      acc.map (fun e => if e.1 = kv.1 then (e.1, e.2 ++ [kv.2]) else e)
    else acc) rl

/-- The batch loop `for batch in range(int(num_batches))` (lines 158-174) in
the default `batch_processor is None` path: a successful run increments
`success` and appends the result fields; a caught `InvalidArgumentError`
increments `skipped` and leaves `result_dict = {}`; an `OutOfRangeError`
escapes to the outer `except` (returned flag `true`).  Returns the final
state, whether the loop ended early on `OutOfRangeError`, and the trace of
attempted batches. -/
def batchLoop (stream : Nat → BatchStep α) (valid : List String) :
    Nat → Nat → LoopState α → LoopState α × Bool × List Event
  | 0, _, st => (st, false, [])
  | fuel+1, i, st =>
    match stream i with
    | .outOfRange => (st, true, [.runBatch i])
    | .invalidArgument =>
        let st1 : LoopState α :=
          { st with counters := { st.counters with skipped := st.counters.skipped + 1 } }
        let r := batchLoop stream valid fuel (i+1) st1
        (r.1, r.2.1, .runBatch i :: r.2.2)
    | .ok d =>
        let st1 : LoopState α :=
          { resultLists := appendResult valid d st.resultLists,
            counters := { st.counters with success := st.counters.success + 1 } }
        let r := batchLoop stream valid fuel (i+1) st1
        (r.1, r.2.1, .runBatch i :: r.2.2)

/-- The accumulation phase of one pass of `run_checkpoint_once` for a given
configuration: final loop state, early-exit flag, batch trace. -/
def accumulatedState (cfg : RunConfig α) : LoopState α × Bool × List Event :=
  batchLoop cfg.stream (validKeys cfg) cfg.numBatches 0 (initLoopState (validKeys cfg))

/-- What a successfully completed pass of `run_checkpoint_once` produces:
the aggregated metrics, the supplementary metrics (`None` if the loop exited
early on `OutOfRangeError`, since `sess.run(metric_names_to_values)` on line
176 is then skipped; Python merges them into `metrics` before writing), and
the final success/skip counters. -/
structure RunOutcome (μ : Type) where
  metrics : μ
  otherMetrics : Option (List (String × Int))
  counters : Counters
deriving DecidableEq

/-- The events of a pass's setup after the argument checks: session
creation, initializers, the restore, and optionally
`tf.train.write_graph` (lines 133-150). -/
def setupEvents (cfg : RunConfig α) : List Event :=
  [.sessionOpen, .initOps, .restoreDone] ++
    (if cfg.saveGraph then [.saveGraphDef] else [])

/-- The value of `other_metrics` when the `finally:` block runs: still
`None` if the batch loop was cut short by `OutOfRangeError` (then line 176
never ran), otherwise `sess.run(metric_names_to_values)` (modelled by
`cfg.otherMetricsVals`). -/
def otherAfterLoop (cfg : RunConfig α) : Option (List (String × Int)) :=
  if (accumulatedState cfg).2.1 then none else cfg.otherMetricsVals

/-- Shallow embedding of `run_checkpoint_once` (lines 131-189), with the
aggregation function `agg` standing for `aggregated_result_processor` (it may
raise, modelled as `Except.error`).  Faithful control-flow notes:

* the `save_graph`/`save_graph_dir` check (131-132) precedes everything;
* the session is created and initializers run (133-139) BEFORE the
  `checkpoint_dirs` check (143-144);
* the `finally:` block (180-188) calls the aggregator and `write_metrics`
  on both normal completion and on the `OutOfRangeError` path;
* if the aggregator raises inside `finally:`, the `with QueueRunners`
  context still exits (`queueStop`) but the trailing `sess.close()` on line
  189 is never reached. -/
def run_checkpoint_once (cfg : RunConfig α) (agg : ResultLists α → Except String μ) :
    Except RunError (RunOutcome μ) × List Event :=
  if cfg.saveGraph = true ∧ cfg.saveGraphDir = "" then
    (.error (.valueError "save_graph_dir must be defined."), [])
  else if cfg.hasRestoreFn = false ∧ cfg.checkpointDirs = [] then
    (.error (.valueError "checkpoint_dirs must have at least one entry."),
     [.sessionOpen, .initOps])
  else
    match agg (accumulatedState cfg).1.resultLists with
    | .error m =>
        (.error (.aggError m),
         setupEvents cfg ++ [.queueStart] ++ (accumulatedState cfg).2.2 ++
           [.aggregateCall, .queueStop])
    | .ok metrics =>
        (.ok { metrics := metrics, otherMetrics := otherAfterLoop cfg,
               counters := (accumulatedState cfg).1.counters },
         setupEvents cfg ++ [.queueStart] ++ (accumulatedState cfg).2.2 ++
           [.aggregateCall, .metricsWritten, .queueStop, .sessionClose])

/-- The arguments and environment of `repeated_checkpoint_run`:
`latest i` is what `tf.train.latest_checkpoint(checkpoint_dirs[0])` returns
on polling iteration `i` (`none` = no checkpoint), `elapsed i` the value of
`time.time() - start` at the end of iteration `i`. -/
structure PollConfig where
  checkpointDirs : List String
  latest : Nat → Option String
  elapsed : Nat → Int
  evalIntervalSecs : Int
  maxNumberOfEvaluations : Option Int

/-- Observable actions of one polling iteration of `repeated_checkpoint_run`:
no checkpoint found, checkpoint unchanged since last evaluation, an
evaluation pass over a given path, or a sleep of a given number of seconds. -/
inductive PollEvent where
  | noModelFound (i : Nat)
  | alreadyEvaluated (i : Nat)
  | evalPass (i : Nat) (path : String)
  | sleepFor (i : Nat) (secs : Int)
deriving DecidableEq

/-- Loop state of `repeated_checkpoint_run`:
`last_evaluated_model_path` and `number_of_evaluations` (lines 272-273). -/
structure PollState where
  lastEvaluatedModelPath : Option String
  numberOfEvaluations : Nat
deriving DecidableEq

/-- Python truthiness of an optional integer, as used by
`if max_number_of_evaluations and ...`: `None` and `0` are falsy. -/
def pyTruthy : Option Int → Bool
  | none => false
  | some n => n != 0

/-- The body of one polling iteration (lines 278-293): resolve the latest
checkpoint, branch on `if not model_path` / `elif model_path ==
last_evaluated_model_path` / `else` (an empty-string path is also falsy in
Python), and unconditionally increment `number_of_evaluations`. -/
def pollOnce (cfg : PollConfig) (i : Nat) (st : PollState) : PollState × PollEvent :=
  match cfg.latest i with
  | none =>
      ({ st with numberOfEvaluations := st.numberOfEvaluations + 1 }, .noModelFound i)
  | some p =>
      if p = "" then
        ({ st with numberOfEvaluations := st.numberOfEvaluations + 1 }, .noModelFound i)
      else if st.lastEvaluatedModelPath = some p then
        ({ st with numberOfEvaluations := st.numberOfEvaluations + 1 }, .alreadyEvaluated i)
      else
        ({ lastEvaluatedModelPath := some p,
           numberOfEvaluations := st.numberOfEvaluations + 1 }, .evalPass i p)

/-- The break condition on lines 295-296:
`if (max_number_of_evaluations and number_of_evaluations >= max_number_of_evaluations)`. -/
def stopNow (cfg : PollConfig) (st : PollState) : Bool :=
  pyTruthy cfg.maxNumberOfEvaluations &&
    decide ((cfg.maxNumberOfEvaluations.getD 0) ≤ (st.numberOfEvaluations : Int))

/-- The `while True` polling loop (lines 274-301), fuelled: each iteration
runs `pollOnce`, checks the break condition, and otherwise sleeps for
`time_to_next_eval = start + eval_interval_secs - time.time()` when that is
positive.  Returns final state, event trace, and whether the loop terminated
by `break` (as opposed to fuel running out). -/
def pollLoop (cfg : PollConfig) : Nat → Nat → PollState → PollState × List PollEvent × Bool
  | 0, _, st => (st, [], false)
  | fuel+1, i, st =>
    let r1 := pollOnce cfg i st
    if stopNow cfg r1.1 then (r1.1, [r1.2], true)
    else
      let rest := cfg.evalIntervalSecs - cfg.elapsed i
      let sleepEvs : List PollEvent := if 0 < rest then [.sleepFor i rest] else []
      let r2 := pollLoop cfg fuel (i+1) r1.1
      (r2.1, r1.2 :: (sleepEvs ++ r2.2.1), r2.2.2)

/-- Shallow embedding of `repeated_checkpoint_run` (lines 265-301): the
`max_number_of_evaluations` guard (truthy AND `<= 0`), the `checkpoint_dirs`
guard, then the polling loop from the initial state. -/
def repeated_checkpoint_run (cfg : PollConfig) (fuel : Nat) :
    Except String (PollState × List PollEvent × Bool) :=
  if pyTruthy cfg.maxNumberOfEvaluations = true ∧ cfg.maxNumberOfEvaluations.getD 0 ≤ 0 then
    .error "number_of_steps must be either None or a positive number."
  else if cfg.checkpointDirs = [] then
    .error "checkpoint_dirs must have at least one entry."
  else
    .ok (pollLoop cfg fuel 0 { lastEvaluatedModelPath := none, numberOfEvaluations := 0 })

/-- Whether a polling event is an evaluation pass. -/
def isEvalPass : PollEvent → Bool
  | .evalPass _ _ => true
  | _ => false

/-- Concrete polling configuration: pass limit `0`, a checkpoint always
available. -/
def pollCfgZero : PollConfig :=
  { checkpointDirs := ["ckpts"], latest := fun _ => some "model-1",
    elapsed := fun _ => 0, evalIntervalSecs := 120, maxNumberOfEvaluations := some 0 }

/-- Concrete polling configuration: pass limit `-1`. -/
def pollCfgNeg : PollConfig :=
  { checkpointDirs := ["ckpts"], latest := fun _ => some "model-1",
    elapsed := fun _ => 0, evalIntervalSecs := 120, maxNumberOfEvaluations := some (-1) }

/-- Concrete polling configuration: pass limit `1`, but no checkpoint ever
appears. -/
def pollCfgNoModel : PollConfig :=
  { checkpointDirs := ["ckpts"], latest := fun _ => none, elapsed := fun _ => 0,
    evalIntervalSecs := 120, maxNumberOfEvaluations := some 1 }

/-- Concrete polling configuration: pass limit `2`, no checkpoint ever
appears. -/
def pollCfgTwo : PollConfig :=
  { checkpointDirs := ["ckpts"], latest := fun _ => none, elapsed := fun _ => 0,
    evalIntervalSecs := 120, maxNumberOfEvaluations := some 2 }

/-- Concrete polling configuration: the same checkpoint path is resolved on
every iteration, no pass limit. -/
def pollCfgConst : PollConfig :=
  { checkpointDirs := ["ckpts"], latest := fun _ => some "model-1",
    elapsed := fun _ => 0, evalIntervalSecs := 120, maxNumberOfEvaluations := none }

/-- The `expected_keys` list of `evaluate_recognition_results` (lines 305-308). -/
def expected_keys : List String := ["groundtruth_text", "recognition_text", "filename"]

/-- The key list of a `result_lists` mapping. -/
def keysOf (rl : ResultLists α) : List String := rl.map Prod.fst

/-- Dict access `result_lists[key]` for an association list (first match;
keys of a Python dict are unique). -/
def listsLookup : ResultLists α → String → List α
  | [], _ => []
  | e :: rest, k => if e.1 = k then e.2 else listsLookup rest k

/-- Shallow embedding of `evaluate_recognition_results` (lines 304-322): it
raises if any expected key is missing, then if any of the three expected
lists differs in length from `result_lists['groundtruth_text']`.  On success
it feeds `(image_id, recognition_text, groundtruth_text)` triples, in order,
to the external `RecognitionEvaluation` scorer (from
`aster/utils/recognition_evaluation.py`, not part of this repository's
sources); the triples themselves are returned here, standing for that
evaluator call. -/
def evaluate_recognition_results (result_lists : ResultLists String) :
    Except String (List (String × String × String)) :=
  if ¬ (expected_keys.all (fun k => k ∈ keysOf result_lists)) then
    .error "result_lists does not have expected key set."
  else
    let num_results := (listsLookup result_lists "groundtruth_text").length
    if expected_keys.any (fun k => (listsLookup result_lists k).length ≠ num_results) then
      .error "Inconsistent list sizes in result_lists"
    else
      .ok ((listsLookup result_lists "filename").zip
        (((listsLookup result_lists "recognition_text")).zip
          (listsLookup result_lists "groundtruth_text")))

/-- The argument checks at the head of `run_checkpoint_once` pass: the
`save_graph`/`save_graph_dir` check and the
`restore_fn`/`checkpoint_dirs` check both succeed. -/
def setupOk (cfg : RunConfig α) : Prop :=
  ¬(cfg.saveGraph = true ∧ cfg.saveGraphDir = "") ∧
  ¬(cfg.hasRestoreFn = false ∧ cfg.checkpointDirs = [])

instance (cfg : RunConfig α) : Decidable (setupOk cfg) := by
  unfold setupOk
  infer_instance

/-- Number of successful batches among batch indices `i, i+1, ...` over a
window of `fuel` batches, stopping at the first `OutOfRangeError` exactly as
the batch loop does. -/
def countSuccess (stream : Nat → BatchStep α) : Nat → Nat → Nat
  | _, 0 => 0
  | i, fuel+1 =>
    match stream i with
    | .outOfRange => 0
    | .invalidArgument => countSuccess stream (i+1) fuel
    | .ok _ => countSuccess stream (i+1) fuel + 1

/-- Number of skipped batches (caught `InvalidArgumentError`) in the same
window, stopping at the first `OutOfRangeError`. -/
def countSkipped (stream : Nat → BatchStep α) : Nat → Nat → Nat
  | _, 0 => 0
  | i, fuel+1 =>
    match stream i with
    | .outOfRange => 0
    | .invalidArgument => countSkipped stream (i+1) fuel + 1
    | .ok _ => countSkipped stream (i+1) fuel

/-- Number of processed batches whose result dict contains the field `k`
(i.e. produced a non-empty result for that field), stopping at the first
`OutOfRangeError`. -/
def countField (stream : Nat → BatchStep α) (k : String) : Nat → Nat → Nat
  | _, 0 => 0
  | i, fuel+1 =>
    match stream i with
    | .outOfRange => 0
    | .invalidArgument => countField stream k (i+1) fuel
    | .ok d => countField stream k (i+1) fuel + (if k ∈ d.map Prod.fst then 1 else 0)

/-- Whether a `result_lists` mapping has an entry for key `k`. -/
def hasKey : ResultLists α → String → Bool
  | [], _ => false
  | e :: rest, k => e.1 = k || hasKey rest k

/-- An aggregation function that always raises (stands for an
`aggregated_result_processor` whose expectations the results violate). -/
def aggRaise : ResultLists Nat → Except String (List (String × Int)) :=
  fun _ => .error "agg failed"

/-- An aggregation function that always returns a fixed metric mapping. -/
def aggConst : ResultLists Nat → Except String (List (String × Int)) :=
  fun _ => .ok [("accuracy", 1)]

/-- Concrete run configuration: one tensor key, one successful batch, a
restore function supplied. -/
def runCfgOne : RunConfig Nat :=
  { tensorKeys := ["recognition_text"], keysToExclude := [], numBatches := 1,
    stream := fun _ => .ok [("recognition_text", 7)], checkpointDirs := ["ckpts"],
    hasRestoreFn := true, saveGraph := false, saveGraphDir := "",
    otherMetricsVals := none }

/-- Concrete run configuration: no restore function and empty
`checkpoint_dirs`. -/
def runCfgNoDirs : RunConfig Nat :=
  { tensorKeys := ["recognition_text"], keysToExclude := [], numBatches := 1,
    stream := fun _ => .ok [("recognition_text", 7)], checkpointDirs := [],
    hasRestoreFn := false, saveGraph := false, saveGraphDir := "",
    otherMetricsVals := none }

/-- Concrete batch stream: batches 0 and 2 succeed with both fields present,
batch 1 fails with a caught `InvalidArgumentError`. -/
def streamW4 : Nat → BatchStep Nat := fun i =>
  if i = 0 then .ok [("groundtruth_text", 1), ("recognition_text", 2)]
  else if i = 2 then .ok [("groundtruth_text", 3), ("recognition_text", 4)]
  else .invalidArgument

/-- Concrete run configuration over `streamW4`: N = 3 batches of which
K = 1 fails transiently. -/
def runCfgW4 : RunConfig Nat :=
  { tensorKeys := ["groundtruth_text", "recognition_text"], keysToExclude := [],
    numBatches := 3, stream := streamW4, checkpointDirs := ["ckpts"],
    hasRestoreFn := true, saveGraph := false, saveGraphDir := "",
    otherMetricsVals := none }

/-- Concrete batch stream: batch 0 succeeds, the input stream is exhausted
at batch 1. -/
def streamW7 : Nat → BatchStep Nat := fun i =>
  if i = 0 then .ok [("recognition_text", 7)] else .outOfRange

/-- Concrete run configuration over `streamW7`: 3 requested batches, stream
exhausted after the first. -/
def runCfgW7 : RunConfig Nat :=
  { tensorKeys := ["recognition_text"], keysToExclude := [], numBatches := 3,
    stream := streamW7, checkpointDirs := ["ckpts"], hasRestoreFn := true,
    saveGraph := false, saveGraphDir := "", otherMetricsVals := some [("num_steps", 9)] }

/-- Concrete run configuration over `String` results that accumulates empty
result lists (zero batches), so `evaluate_recognition_results` raises on the
missing expected keys. -/
def runCfgStr : RunConfig String :=
  { tensorKeys := [], keysToExclude := [], numBatches := 0,
    stream := fun _ => .outOfRange, checkpointDirs := ["ckpts"], hasRestoreFn := true,
    saveGraph := false, saveGraphDir := "", otherMetricsVals := none }

/-- A concrete `result_lists` missing the required `filename` field. -/
def rlMissing : ResultLists String :=
  [("groundtruth_text", ["cat"]), ("recognition_text", ["cat"])]

end EvalUtil

namespace Predict

/-- The extension list `exts = ['jpg', 'png', 'jpeg', 'JPG']` of
`get_images` (line 35 of `predict.py`). -/
def exts : List String := ["jpg", "png", "jpeg", "JPG"]

/-- Python `str.endswith` for a plain-string argument: a case-sensitive
suffix test, modelled structurally over the character sequences. -/
def pyEndsWith (s post : String) : Bool :=
  post.data.isSuffixOf s.data

/-- The inner `for ext in exts: if filename.endswith(ext): append; break`
of `get_images` (lines 38-41): the file is appended once iff its name ends
with at least one of the listed extensions (case-sensitively). -/
def matchesExt (filename : String) : Bool :=
  exts.any (fun ext => pyEndsWith filename ext)

/-- Shallow embedding of `get_images` (lines 33-43).  `walk` models the
sequence of `(parent, filenames)` pairs yielded by
`os.walk(FLAGS.test_data_path)` (directory names are unused by the source);
`os.path.join(parent, filename)` is modelled as `parent ++ "/" ++ filename`
(filenames yielded by `os.walk` are plain base names). -/
def get_images (walk : List (String × List String)) : List String :=
  walk.foldl (fun files pf =>
    pf.2.foldl (fun acc filename =>
      if matchesExt filename then acc ++ [pf.1 ++ "/" ++ filename] else acc) files) []

/-- `os.path.basename`: the part of the path after the last slash. -/
def basename (p : String) : String := (p.splitOn "/").getLastD ""

/-- The header `title = 'name,label' + "\r\n"` written first (lines 92-93). -/
def headerLine : String := "name,label" ++ "\r\n"

/-- One data row of the `__main__` loop (lines 99-102):
`os.path.basename(im_fn) + ',' + result + "\r\n"`, where `result` is the
CRNN recognition output for that image.  The recognition call
`crnn_recognition(Image.open(im_fn), model)` is abstracted as a function
`rec` from the image path to the recognized text (the model is fixed for
the whole run). -/
def csvLine (rec : String → String) (im_fn : String) : String :=
  basename im_fn ++ "," ++ rec im_fn ++ "\r\n"

/-- Shallow embedding of the `__main__` block of `predict.py` (lines 78-105)
restricted to its observable file output: the script opens the output CSV in
append mode (`open(..., "a")`), so the previous file content `existing` is
kept, then writes the header line followed by one data row per image
returned by `get_images`. -/
def predictMain (walk : List (String × List String)) (rec : String → String)
    (existing : String) : String :=
  existing ++ headerLine ++ String.join ((get_images walk).map (csvLine rec))

/-- A concrete directory walk: two directories; `b.txt` matches no image
extension. -/
def walkW : List (String × List String) :=
  [("root", ["a.jpg", "b.txt"]), ("root/sub", ["c.png"])]

end Predict

namespace EvalUtil

/-- Claim C2 is false as stated: with `max_number_of_evaluations = 0` (a
value `≤ 0`) `repeated_checkpoint_run` raises no `ValueError` — `0` is falsy
in Python, so the guard on lines 265-267 is skipped — and an evaluation pass
runs in the very first polling iteration. -/
theorem claim2_counterexample :
    repeated_checkpoint_run pollCfgZero 1 =
      .ok ({ lastEvaluatedModelPath := some "model-1", numberOfEvaluations := 1 },
           [PollEvent.evalPass 0 "model-1", PollEvent.sleepFor 0 120], false) :=
  rfl

/-- Claim C2 (amended): for every `max_number_of_evaluations` that is a
negative number, `repeated_checkpoint_run` raises `ValueError` immediately,
before any polling iteration, session setup or evaluation pass; the value
`0`, being falsy, is instead treated like `None`. -/
theorem claim2_amended (cfg : PollConfig) (fuel : Nat) (n : Int)
    (h1 : cfg.maxNumberOfEvaluations = some n) (h2 : n < 0) :
    repeated_checkpoint_run cfg fuel =
      .error "number_of_steps must be either None or a positive number." := by
  have hc : pyTruthy cfg.maxNumberOfEvaluations = true ∧
      cfg.maxNumberOfEvaluations.getD 0 ≤ 0 := by
    rw [h1]
    refine ⟨?_, ?_⟩
    · simp only [pyTruthy, bne_iff_ne, ne_eq]
      omega
    · simp only [Option.getD_some]
      omega
  unfold repeated_checkpoint_run
  rw [if_pos hc]

/-- Witness for the amended claim C2 at pass limit `-1`. -/
theorem claim2_amended_witness :
    repeated_checkpoint_run pollCfgNeg 3 =
      .error "number_of_steps must be either None or a positive number." :=
  claim2_amended pollCfgNeg 3 (-1) rfl (by decide)

theorem pollOnce_num (cfg : PollConfig) (i : Nat) (st : PollState) :
    (pollOnce cfg i st).1.numberOfEvaluations = st.numberOfEvaluations + 1 := by
  unfold pollOnce
  cases cfg.latest i with
  | none => rfl
  | some p =>
    by_cases h1 : p = "" <;> by_cases h2 : st.lastEvaluatedModelPath = some p <;>
      simp [h1, h2]

theorem pollOnce_last_same (cfg : PollConfig) (i : Nat) (st : PollState) (p : String)
    (hl : cfg.latest i = some p) (hp : p ≠ "") (he : st.lastEvaluatedModelPath = some p) :
    pollOnce cfg i st =
      ({ st with numberOfEvaluations := st.numberOfEvaluations + 1 },
       PollEvent.alreadyEvaluated i) := by
  unfold pollOnce
  rw [hl]
  simp [hp, he]

theorem pollOnce_evalPass_inv (cfg : PollConfig) (i : Nat) (st : PollState)
    (j : Nat) (p : String) (h : (pollOnce cfg i st).2 = PollEvent.evalPass j p) :
    cfg.latest i = some p ∧ p ≠ "" ∧ st.lastEvaluatedModelPath ≠ some p ∧
    (pollOnce cfg i st).1.lastEvaluatedModelPath = some p := by
  cases hl : cfg.latest i with
  | none =>
    unfold pollOnce at h
    rw [hl] at h
    simp at h
  | some q =>
    simp only [pollOnce, hl] at h
    by_cases h1 : q = ""
    · rw [if_pos h1] at h; simp at h
    · rw [if_neg h1] at h
      by_cases h2 : st.lastEvaluatedModelPath = some q
      · rw [if_pos h2] at h; simp at h
      · rw [if_neg h2] at h
        simp only [PollEvent.evalPass.injEq] at h
        obtain ⟨hj, hp⟩ := h
        subst hp
        refine ⟨rfl, h1, h2, ?_⟩
        simp only [pollOnce, hl]
        rw [if_neg h1, if_neg h2]

theorem pollOnce_same_path (cfg : PollConfig) (i : Nat) (st : PollState) (p : String)
    (hl : cfg.latest i = some p) (he : st.lastEvaluatedModelPath = some p) :
    (pollOnce cfg i st).1.lastEvaluatedModelPath = some p ∧
    isEvalPass (pollOnce cfg i st).2 = false := by
  unfold pollOnce
  rw [hl]
  by_cases h1 : p = "" <;> simp [h1, he, isEvalPass]

theorem pollLoop_pass_zero (cfg : PollConfig) (p : String)
    (hall : ∀ i, cfg.latest i = some p) :
    ∀ (fuel i : Nat) (st : PollState), st.lastEvaluatedModelPath = some p →
      ((pollLoop cfg fuel i st).2.1.countP isEvalPass) = 0 := by
  intro fuel
  induction fuel with
  | zero => intro i st _; simp [pollLoop]
  | succ n ih =>
    intro i st h
    obtain ⟨hlast, hnotpass⟩ := pollOnce_same_path cfg i st p (hall i) h
    rw [pollLoop]
    by_cases hstop : stopNow cfg (pollOnce cfg i st).1 = true
    · simp [hstop, List.countP_cons, hnotpass]
    · simp only [hstop, if_false, Bool.false_eq_true, ite_false]
      have hsleep : (if 0 < cfg.evalIntervalSecs - cfg.elapsed i then
          ([PollEvent.sleepFor i (cfg.evalIntervalSecs - cfg.elapsed i)]) else
          ([] : List PollEvent)).countP isEvalPass = 0 := by
        split <;> simp [isEvalPass]
      rw [List.countP_cons, List.countP_append, hnotpass, hsleep, ih (i+1) _ hlast]
      simp

theorem pollLoop_pass_le_one (cfg : PollConfig) (p : String)
    (hall : ∀ i, cfg.latest i = some p) :
    ∀ (fuel i : Nat) (st : PollState),
      ((pollLoop cfg fuel i st).2.1.countP isEvalPass) ≤ 1 := by
  intro fuel
  induction fuel with
  | zero => intro i st; simp [pollLoop]
  | succ n ih =>
    intro i st
    rw [pollLoop]
    by_cases hstop : stopNow cfg (pollOnce cfg i st).1 = true
    · simp only [hstop, if_true, ite_true]
      rw [List.countP_cons]
      simp only [List.countP_nil]
      cases hev : (pollOnce cfg i st).2 <;> simp [isEvalPass]
    · simp only [hstop, if_false, Bool.false_eq_true, ite_false]
      rw [List.countP_cons, List.countP_append]
      have hsleep : (if 0 < cfg.evalIntervalSecs - cfg.elapsed i then
          ([PollEvent.sleepFor i (cfg.evalIntervalSecs - cfg.elapsed i)]) else
          ([] : List PollEvent)).countP isEvalPass = 0 := by
        split <;> simp [isEvalPass]
      rw [hsleep]
      cases hev : (pollOnce cfg i st).2 with
      | evalPass j q =>
        have hinv := pollOnce_evalPass_inv cfg i st j q hev
        have hq : q = p := by
          have := hall i
          rw [hinv.1] at this
          exact (Option.some.injEq _ _ ▸ this :)
        have hz := pollLoop_pass_zero cfg p hall n (i+1) (pollOnce cfg i st).1
          (hq ▸ hinv.2.2.2)
        rw [hz]
        simp [isEvalPass]
      | noModelFound j => simpa [isEvalPass] using ih (i+1) (pollOnce cfg i st).1
      | alreadyEvaluated j => simpa [isEvalPass] using ih (i+1) (pollOnce cfg i st).1
      | sleepFor j d => simpa [isEvalPass] using ih (i+1) (pollOnce cfg i st).1

/-- Claim C5: in `repeated_checkpoint_run`, (1) a polling iteration that
resolves the same latest-checkpoint path as the previously evaluated one
only logs and increments the iteration counter — it triggers no evaluation
pass (hence no metric write, which only happens inside a pass) and leaves
the recorded path unchanged; (2) an iteration produces an evaluation pass
only when the resolved path exists (non-falsy) and differs from the last
evaluated path, and that path is then recorded as last evaluated; (3)
consequently, when every polling iteration resolves the same path, the whole
polling loop runs at most one evaluation pass. -/
theorem claim5 (cfg : PollConfig) :
    (∀ (i : Nat) (st : PollState) (p : String),
        cfg.latest i = some p → p ≠ "" → st.lastEvaluatedModelPath = some p →
        pollOnce cfg i st =
          ({ st with numberOfEvaluations := st.numberOfEvaluations + 1 },
           PollEvent.alreadyEvaluated i)) ∧
    (∀ (i : Nat) (st : PollState) (j : Nat) (p : String),
        (pollOnce cfg i st).2 = PollEvent.evalPass j p →
        cfg.latest i = some p ∧ p ≠ "" ∧ st.lastEvaluatedModelPath ≠ some p ∧
        (pollOnce cfg i st).1.lastEvaluatedModelPath = some p) ∧
    (∀ p : String, (∀ i, cfg.latest i = some p) →
        ∀ (fuel i : Nat) (st : PollState),
          ((pollLoop cfg fuel i st).2.1.countP isEvalPass) ≤ 1) :=
  ⟨fun i st p hl hp he => pollOnce_last_same cfg i st p hl hp he,
   fun i st j p h => pollOnce_evalPass_inv cfg i st j p h,
   fun p hall fuel i st => pollLoop_pass_le_one cfg p hall fuel i st⟩

/-- Witness for claim C5: with a constant resolved checkpoint path, a
three-iteration polling loop from the initial state runs at most one
evaluation pass. -/
theorem claim5_witness :
    ((pollLoop pollCfgConst 3 0
        { lastEvaluatedModelPath := none, numberOfEvaluations := 0 }).2.1.countP
      isEvalPass) ≤ 1 :=
  (claim5 pollCfgConst).2.2 "model-1" (fun _ => rfl) 3 0 _

theorem pollLoop_stops (cfg : PollConfig) (M : Int)
    (hmax : cfg.maxNumberOfEvaluations = some M) :
    ∀ (fuel i : Nat) (st : PollState),
      (st.numberOfEvaluations : Int) < M →
      M ≤ (st.numberOfEvaluations : Int) + (fuel : Int) →
      (pollLoop cfg fuel i st).2.2 = true ∧
      ((pollLoop cfg fuel i st).1.numberOfEvaluations : Int) = M := by
  intro fuel
  induction fuel with
  | zero =>
    intro i st h1 h2
    exfalso
    omega
  | succ n ih =>
    intro i st h1 h2
    have hnum := pollOnce_num cfg i st
    rw [pollLoop]
    by_cases hM : M ≤ (st.numberOfEvaluations : Int) + 1
    · have hstop : stopNow cfg (pollOnce cfg i st).1 = true := by
        unfold stopNow
        rw [hmax, hnum]
        simp only [pyTruthy, Option.getD_some, Bool.and_eq_true, bne_iff_ne, ne_eq,
          decide_eq_true_eq]
        constructor
        · omega
        · push_cast
          omega
      simp only [hstop, if_true, ite_true]
      refine ⟨by trivial, ?_⟩
      rw [hnum]
      push_cast
      omega
    · have hstop : stopNow cfg (pollOnce cfg i st).1 = false := by
        unfold stopNow
        rw [hmax, hnum]
        simp only [pyTruthy, Option.getD_some, Bool.and_eq_false_iff, bne_eq_false_iff_eq,
          decide_eq_false_iff_not, not_le]
        right
        push_cast
        omega
      simp only [hstop, if_false, Bool.false_eq_true, ite_false]
      exact ih (i+1) (pollOnce cfg i st).1 (by omega) (by push_cast at h2 ⊢; omega)

theorem pollLoop_none (cfg : PollConfig) (hmax : cfg.maxNumberOfEvaluations = none) :
    ∀ (fuel i : Nat) (st : PollState), (pollLoop cfg fuel i st).2.2 = false := by
  intro fuel
  induction fuel with
  | zero => intro i st; rfl
  | succ n ih =>
    intro i st
    rw [pollLoop]
    have hstop : stopNow cfg (pollOnce cfg i st).1 = false := by
      unfold stopNow
      rw [hmax]
      rfl
    simp only [hstop, if_false, Bool.false_eq_true, ite_false]
    exact ih (i+1) (pollOnce cfg i st).1

theorem pollOnce_not_sleep (cfg : PollConfig) (i : Nat) (st : PollState)
    (j : Nat) (d : Int) : (pollOnce cfg i st).2 ≠ PollEvent.sleepFor j d := by
  cases hl : cfg.latest i with
  | none => simp [pollOnce, hl]
  | some p =>
    simp only [pollOnce, hl]
    split_ifs <;> simp

theorem pollLoop_sleep (cfg : PollConfig) :
    ∀ (fuel i : Nat) (st : PollState) (j : Nat) (d : Int),
      PollEvent.sleepFor j d ∈ (pollLoop cfg fuel i st).2.1 →
      d = cfg.evalIntervalSecs - cfg.elapsed j ∧ 0 < d := by
  intro fuel
  induction fuel with
  | zero => intro i st j d h; simp [pollLoop] at h
  | succ n ih =>
    intro i st j d h
    rw [pollLoop] at h
    by_cases hstop : stopNow cfg (pollOnce cfg i st).1 = true
    · simp only [hstop, if_true, ite_true, List.mem_singleton] at h
      exact absurd h.symm (pollOnce_not_sleep cfg i st j d)
    · simp only [hstop, if_false, Bool.false_eq_true, ite_false, List.mem_cons,
        List.mem_append] at h
      rcases h with h | h | h
      · exact absurd h.symm (pollOnce_not_sleep cfg i st j d)
      · by_cases hrest : 0 < cfg.evalIntervalSecs - cfg.elapsed i
        · rw [if_pos hrest] at h
          simp only [List.mem_singleton, PollEvent.sleepFor.injEq] at h
          obtain ⟨hj, hd⟩ := h
          subst hj
          subst hd
          exact ⟨rfl, hrest⟩
        · rw [if_neg hrest] at h
          simp at h
      · exact ih (i+1) (pollOnce cfg i st).1 j d h

/-- Claim C8 is false as stated: with pass limit `M = 1` but no checkpoint
ever present, the polling loop of `repeated_checkpoint_run` stops (break,
final flag `true`) after its first iteration even though zero evaluation
passes have been run — `number_of_evaluations` counts polling iterations,
not evaluation passes. -/
theorem claim8_counterexample :
    repeated_checkpoint_run pollCfgNoModel 5 =
      .ok ({ lastEvaluatedModelPath := none, numberOfEvaluations := 1 },
           [PollEvent.noModelFound 0], true) ∧
    (∀ (i : Nat) (p : String), PollEvent.evalPass i p ∉ [PollEvent.noModelFound 0]) := by
  refine ⟨rfl, ?_⟩
  intro i p h
  simp at h

/-- Claim C8 (amended): for every positive configured maximum `M`, the
polling loop stops after `M` polling iterations — the counter increments on
every iteration, whether or not that iteration ran an evaluation pass; if
the maximum is unset (`None`) the loop never stops.  Between iterations the
loop sleeps exactly the remaining `eval_interval_secs - elapsed` time, and
only when that remainder is positive (no sleep if the pass overran the
interval). -/
theorem claim8_amended (cfg : PollConfig) (fuel : Nat)
    (r : PollState × List PollEvent × Bool)
    (hr : repeated_checkpoint_run cfg fuel = .ok r) :
    (∀ M : Int, cfg.maxNumberOfEvaluations = some M → 0 < M → M ≤ (fuel : Int) →
        r.2.2 = true ∧ (r.1.numberOfEvaluations : Int) = M) ∧
    (cfg.maxNumberOfEvaluations = none → r.2.2 = false) ∧
    (∀ (j : Nat) (d : Int), PollEvent.sleepFor j d ∈ r.2.1 →
        d = cfg.evalIntervalSecs - cfg.elapsed j ∧ 0 < d) := by
  unfold repeated_checkpoint_run at hr
  split at hr
  · exact absurd hr (by simp)
  · split at hr
    · exact absurd hr (by simp)
    · have hr2 : pollLoop cfg fuel 0
          { lastEvaluatedModelPath := none, numberOfEvaluations := 0 } = r := by
        injection hr
      refine ⟨?_, ?_, ?_⟩
      · intro M hM h0 hfuel
        rw [← hr2]
        exact pollLoop_stops cfg M hM fuel 0 _ (by simp; omega) (by simp; omega)
      · intro hM
        rw [← hr2]
        exact pollLoop_none cfg hM fuel 0 _
      · intro j d hmem
        rw [← hr2] at hmem
        exact pollLoop_sleep cfg fuel 0 _ j d hmem

/-- Witness for the amended claim C8: pass limit `2`, no checkpoint ever
found — the loop breaks after exactly 2 iterations. -/
theorem claim8_witness :
    (pollLoop pollCfgTwo 5 0
        { lastEvaluatedModelPath := none, numberOfEvaluations := 0 }).2.2 = true ∧
    (((pollLoop pollCfgTwo 5 0
        { lastEvaluatedModelPath := none, numberOfEvaluations := 0 }).1.numberOfEvaluations :
      Int) = 2) := by
  have h := claim8_amended pollCfgTwo 5
    (pollLoop pollCfgTwo 5 0 { lastEvaluatedModelPath := none, numberOfEvaluations := 0 })
    rfl
  exact h.1 2 rfl (by decide) (by decide)

theorem batchLoop_events (stream : Nat → BatchStep α) (valid : List String) :
    ∀ (fuel i : Nat) (st : LoopState α) (e : Event),
      e ∈ (batchLoop stream valid fuel i st).2.2 → ∃ j, e = Event.runBatch j := by
  intro fuel
  induction fuel with
  | zero => intro i st e h; simp [batchLoop] at h
  | succ n ih =>
    intro i st e h
    cases hs : stream i with
    | outOfRange =>
      simp only [batchLoop, hs, List.mem_singleton] at h
      exact ⟨i, h⟩
    | invalidArgument =>
      simp only [batchLoop, hs, List.mem_cons] at h
      rcases h with h | h
      · exact ⟨i, h⟩
      · exact ih (i+1) _ e h
    | ok d =>
      simp only [batchLoop, hs, List.mem_cons] at h
      rcases h with h | h
      · exact ⟨i, h⟩
      · exact ih (i+1) _ e h

theorem batchLoop_early (stream : Nat → BatchStep α) (valid : List String) :
    ∀ (fuel i : Nat) (st : LoopState α),
      (∃ k, k < fuel ∧ stream (i + k) = BatchStep.outOfRange) →
      (batchLoop stream valid fuel i st).2.1 = true := by
  intro fuel
  induction fuel with
  | zero =>
    intro i st h
    obtain ⟨k, hk, _⟩ := h
    omega
  | succ n ih =>
    intro i st h
    obtain ⟨k, hk, hs⟩ := h
    cases hsi : stream i with
    | outOfRange => simp [batchLoop, hsi]
    | invalidArgument =>
      simp only [batchLoop, hsi]
      cases k with
      | zero =>
        rw [Nat.add_zero, hsi] at hs
        exact absurd hs (by simp)
      | succ k' =>
        exact ih (i+1) _ ⟨k', by omega, by rw [show (i+1) + k' = i + (k'+1) by omega]; exact hs⟩
    | ok d =>
      simp only [batchLoop, hsi]
      cases k with
      | zero =>
        rw [Nat.add_zero, hsi] at hs
        exact absurd hs (by simp)
      | succ k' =>
        exact ih (i+1) _ ⟨k', by omega, by rw [show (i+1) + k' = i + (k'+1) by omega]; exact hs⟩

/-- Claim C1 is false as stated: at a concrete configuration whose
aggregation function raises, the pass propagates the aggregation error, the
queue-runner context is exited, but `sess.close()` (line 189 sits outside
any `try/finally`) is never executed — the session is NOT released. -/
theorem claim1_counterexample :
    (run_checkpoint_once runCfgOne aggRaise).1 =
      Except.error (RunError.aggError "agg failed") ∧
    Event.queueStop ∈ (run_checkpoint_once runCfgOne aggRaise).2 ∧
    Event.sessionClose ∉ (run_checkpoint_once runCfgOne aggRaise).2 := by
  refine ⟨rfl, by decide, by decide⟩

/-- Claim C1 (amended): for every pass that gets past the argument checks,
the queue-runner execution context is entered and exited unconditionally —
also when the aggregation function raises.  The TensorFlow session, however,
is closed only on normal completion: when aggregation raises, `sessionClose`
never happens. -/
theorem claim1_amended {μ : Type} (cfg : RunConfig α)
    (agg : ResultLists α → Except String μ) (h : setupOk cfg) :
    (Event.queueStart ∈ (run_checkpoint_once cfg agg).2 ∧
     Event.queueStop ∈ (run_checkpoint_once cfg agg).2) ∧
    (∀ m : String, agg (accumulatedState cfg).1.resultLists = .error m →
        Event.sessionClose ∉ (run_checkpoint_once cfg agg).2) ∧
    (∀ o : RunOutcome μ, (run_checkpoint_once cfg agg).1 = .ok o →
        Event.sessionClose ∈ (run_checkpoint_once cfg agg).2) := by
  unfold run_checkpoint_once
  rw [if_neg h.1, if_neg h.2]
  cases hagg : agg (accumulatedState cfg).1.resultLists with
  | error m =>
    refine ⟨⟨by simp, by simp⟩, ?_, ?_⟩
    · intro m' _ hmem
      simp only [setupEvents, List.append_assoc, List.mem_append, List.mem_cons,
        List.mem_singleton, List.not_mem_nil] at hmem
      rcases hmem with h1 | h1 | h1 | h1 | h1 | h1 <;> first
        | exact absurd h1 (by simp)
        | (obtain ⟨j, hj⟩ := batchLoop_events cfg.stream (validKeys cfg)
             cfg.numBatches 0 _ _ h1
           cases hj)
    · intro o ho
      exact absurd ho (by simp)
  | ok v =>
    refine ⟨⟨by simp, by simp⟩, ?_, ?_⟩
    · intro m' hm'
      exact absurd hm' (by simp)
    · intro o _
      simp

/-- Witness for the amended claim C1 at a concrete configuration and a
succeeding aggregation function. -/
theorem claim1_witness :
    Event.queueStart ∈ (run_checkpoint_once runCfgOne aggConst).2 ∧
    Event.queueStop ∈ (run_checkpoint_once runCfgOne aggConst).2 :=
  (claim1_amended runCfgOne aggConst (by decide)).1

/-- Claim C3 is false as stated: with no restore function and empty
`checkpoint_dirs`, `run_checkpoint_once` does raise the explicit
`ValueError` before any batch runs, but only AFTER the TensorFlow session
has been created and its initializers run (lines 133-139 precede the check
on line 143) — not "before any session/model setup". -/
theorem claim3_counterexample :
    run_checkpoint_once runCfgNoDirs aggConst =
      (Except.error (RunError.valueError "checkpoint_dirs must have at least one entry."),
       [Event.sessionOpen, Event.initOps]) ∧
    Event.sessionOpen ∈ (run_checkpoint_once runCfgNoDirs aggConst).2 := by
  refine ⟨rfl, by decide⟩

/-- Claim C3 (amended): when `checkpoint_dirs` is empty/unset and no restore
function is supplied, `run_checkpoint_once` fails with an explicit
`ValueError` before any restore, any queue-runner start, and any batch run —
but after the session has been created and initialized (its whole event
trace is exactly session creation plus initializers); `repeated_checkpoint_run`
performs the same check up front, before any polling iteration or session
work. -/
theorem claim3_amended {μ : Type} (cfg : RunConfig α)
    (agg : ResultLists α → Except String μ)
    (h1 : cfg.hasRestoreFn = false) (h2 : cfg.checkpointDirs = [])
    (h3 : ¬(cfg.saveGraph = true ∧ cfg.saveGraphDir = "")) :
    (run_checkpoint_once cfg agg =
      (Except.error (RunError.valueError "checkpoint_dirs must have at least one entry."),
       [Event.sessionOpen, Event.initOps])) ∧
    (∀ (pcfg : PollConfig) (fuel : Nat), pcfg.checkpointDirs = [] →
      ¬(pyTruthy pcfg.maxNumberOfEvaluations = true ∧
          pcfg.maxNumberOfEvaluations.getD 0 ≤ 0) →
      repeated_checkpoint_run pcfg fuel =
        .error "checkpoint_dirs must have at least one entry.") := by
  constructor
  · unfold run_checkpoint_once
    rw [if_neg h3, if_pos ⟨h1, h2⟩]
  · intro pcfg fuel hd hmax
    unfold repeated_checkpoint_run
    rw [if_neg hmax, if_pos hd]

/-- Witness for the amended claim C3 at a concrete configuration. -/
theorem claim3_amended_witness :
    run_checkpoint_once runCfgNoDirs aggRaise =
      (Except.error (RunError.valueError "checkpoint_dirs must have at least one entry."),
       [Event.sessionOpen, Event.initOps]) :=
  (claim3_amended runCfgNoDirs aggRaise rfl rfl (by decide)).1

/-- Claim C7: if the input stream is exhausted (`OutOfRangeError`) at some
batch index before `num_batches` batches are done, the batch loop ends early
without this being an error — aggregation is still called, and when the
aggregation function succeeds the pass completes normally (no error result),
the metrics are written, and `other_metrics` stays `None` because line 176
was skipped. -/
theorem claim7 {μ : Type} (cfg : RunConfig α)
    (agg : ResultLists α → Except String μ) (h : setupOk cfg)
    (j : Nat) (hj : j < cfg.numBatches)
    (hOut : cfg.stream j = BatchStep.outOfRange) :
    Event.aggregateCall ∈ (run_checkpoint_once cfg agg).2 ∧
    (∀ mv : μ, agg (accumulatedState cfg).1.resultLists = .ok mv →
        (run_checkpoint_once cfg agg).1 =
          .ok { metrics := mv, otherMetrics := none,
                counters := (accumulatedState cfg).1.counters } ∧
        Event.metricsWritten ∈ (run_checkpoint_once cfg agg).2) := by
  have hearly : (accumulatedState cfg).2.1 = true :=
    batchLoop_early cfg.stream (validKeys cfg) cfg.numBatches 0 _
      ⟨j, hj, by simpa using hOut⟩
  unfold run_checkpoint_once
  rw [if_neg h.1, if_neg h.2]
  cases hagg : agg (accumulatedState cfg).1.resultLists with
  | error m =>
    constructor
    · simp
    · intro mv hmv
      exact absurd hmv (by simp)
  | ok v =>
    constructor
    · simp
    · intro mv hmv
      have hv : v = mv := by
        injection hmv
      subst hv
      refine ⟨?_, by simp⟩
      simp [otherAfterLoop, hearly]

/-- Witness for claim C7: 3 requested batches, stream exhausted at batch 1;
with an aggregation function returning the accumulated lists themselves, the
pass completes normally with `other_metrics = None` and one success. -/
theorem claim7_witness :
    Event.aggregateCall ∈
      (run_checkpoint_once runCfgW7 (fun rl => Except.ok rl)).2 ∧
    (run_checkpoint_once runCfgW7 (fun rl => Except.ok rl)).1 =
      .ok { metrics := (accumulatedState runCfgW7).1.resultLists,
            otherMetrics := none,
            counters := (accumulatedState runCfgW7).1.counters } ∧
    Event.metricsWritten ∈ (run_checkpoint_once runCfgW7 (fun rl => Except.ok rl)).2 := by
  have h := claim7 runCfgW7 (fun rl => Except.ok rl) (by decide) 1 (by decide) (by decide)
  have h2 := h.2 (accumulatedState runCfgW7).1.resultLists rfl
  exact ⟨h.1, h2.1, h2.2⟩

theorem run_aggError_no_write {μ : Type} (cfg : RunConfig α)
    (agg : ResultLists α → Except String μ) (m : String)
    (hrun : (run_checkpoint_once cfg agg).1 = .error (.aggError m)) :
    Event.metricsWritten ∉ (run_checkpoint_once cfg agg).2 := by
  unfold run_checkpoint_once at hrun ⊢
  by_cases h1 : cfg.saveGraph = true ∧ cfg.saveGraphDir = ""
  · rw [if_pos h1] at hrun
    simp at hrun
  · rw [if_neg h1] at hrun ⊢
    by_cases h2 : cfg.hasRestoreFn = false ∧ cfg.checkpointDirs = []
    · rw [if_pos h2] at hrun
      simp at hrun
    · rw [if_neg h2] at hrun ⊢
      cases hagg : agg (accumulatedState cfg).1.resultLists with
      | ok v =>
        rw [hagg] at hrun
        simp at hrun
      | error m' =>
        intro hmem
        simp only [setupEvents, List.append_assoc, List.mem_append, List.mem_cons,
          List.mem_singleton, List.not_mem_nil] at hmem
        rcases hmem with hx | hx | hx | hx | hx | hx <;> first
          | exact absurd hx (by simp)
          | (obtain ⟨j, hj⟩ := batchLoop_events cfg.stream (validKeys cfg)
               cfg.numBatches 0 _ _ hx
             cases hj)

/-- Claim C6: (1) for every `result_lists` missing one of the required
fields `groundtruth_text`, `recognition_text`, `filename`, or in which those
three fields' sequences are not all equal in length,
`evaluate_recognition_results` raises a `ValueError`; (2) whenever the
aggregation function of a pass (here `evaluate_recognition_results`) raises,
the pass propagates that error and no metric is written to the summary
log. -/
theorem claim6 :
    (∀ rl : ResultLists String,
        (¬ (expected_keys.all (fun k => k ∈ keysOf rl) = true)) ∨
        (¬ ((listsLookup rl "recognition_text").length =
              (listsLookup rl "groundtruth_text").length ∧
            (listsLookup rl "filename").length =
              (listsLookup rl "groundtruth_text").length)) →
        ∃ msg, evaluate_recognition_results rl = .error msg) ∧
    (∀ (cfg : RunConfig String) (m : String),
        (run_checkpoint_once cfg evaluate_recognition_results).1 =
          .error (.aggError m) →
        Event.metricsWritten ∉
          (run_checkpoint_once cfg evaluate_recognition_results).2) := by
  constructor
  · intro rl hbad
    unfold evaluate_recognition_results
    by_cases hk : (expected_keys.all fun k => decide (k ∈ keysOf rl)) = true
    · have hbad2 : ¬((listsLookup rl "recognition_text").length =
            (listsLookup rl "groundtruth_text").length ∧
          (listsLookup rl "filename").length =
            (listsLookup rl "groundtruth_text").length) := by
        rcases hbad with hbad | hbad
        · exact absurd hk hbad
        · exact hbad
      have hany : (expected_keys.any fun k =>
          decide ((listsLookup rl k).length ≠
            (listsLookup rl "groundtruth_text").length)) = true := by
        simp only [expected_keys, List.any_cons, List.any_nil, Bool.or_eq_true,
          decide_eq_true_eq, Bool.or_false, ne_eq]
        rcases not_and_or.mp hbad2 with hd | hd
        · exact Or.inr (Or.inl hd)
        · exact Or.inr (Or.inr hd)
      rw [if_neg (by simpa using hk)]
      refine ⟨"Inconsistent list sizes in result_lists", ?_⟩
      show (if (expected_keys.any fun k =>
          decide ((listsLookup rl k).length ≠
            (listsLookup rl "groundtruth_text").length)) = true then
          (Except.error "Inconsistent list sizes in result_lists" :
            Except String (List (String × String × String)))
        else Except.ok ((listsLookup rl "filename").zip
          ((listsLookup rl "recognition_text").zip
            (listsLookup rl "groundtruth_text")))) =
        Except.error "Inconsistent list sizes in result_lists"
      rw [if_pos hany]
    · rw [if_pos hk]
      exact ⟨_, rfl⟩
  · intro cfg m hrun
    exact run_aggError_no_write cfg evaluate_recognition_results m hrun

/-- Witness for claim C6: a concrete result set missing the `filename`
field makes `evaluate_recognition_results` raise, and a concrete pass whose
aggregation raises writes no metrics. -/
theorem claim6_witness :
    (∃ msg, evaluate_recognition_results rlMissing = .error msg) ∧
    Event.metricsWritten ∉
      (run_checkpoint_once runCfgStr evaluate_recognition_results).2 := by
  refine ⟨claim6.1 rlMissing ?_, claim6.2 runCfgStr
    "result_lists does not have expected key set." ?_⟩
  · left
    decide
  · rfl

theorem listsLookup_update (rl : ResultLists α) (c : String) (v : α) (k : String) :
    listsLookup (rl.map (fun e => if e.1 = c then (e.1, e.2 ++ [v]) else e)) k =
      if c = k ∧ hasKey rl k = true then listsLookup rl k ++ [v]
      else listsLookup rl k := by
  induction rl with
  | nil => simp [listsLookup, hasKey]
  | cons e rest ih =>
    simp only [List.map_cons]
    by_cases hec : e.1 = c
    · by_cases hek : e.1 = k
      · have hck : c = k := hec.symm.trans hek
        simp [listsLookup, hasKey, hec, hek, hck]
      · have hck : ¬ c = k := fun h => hek (hec.trans h)
        simp [listsLookup, hasKey, hec, hek, hck, ih]
    · by_cases hek : e.1 = k
      · have hck : ¬ c = k := fun h => hec (hek.trans h.symm)
        have hck2 : ¬ k = c := fun h => hck h.symm
        simp [listsLookup, hasKey, hec, hek, hck, hck2]
      · simp [listsLookup, hasKey, hec, hek, ih]

theorem hasKey_update (rl : ResultLists α) (c : String) (v : α) (k : String) :
    hasKey (rl.map (fun e => if e.1 = c then (e.1, e.2 ++ [v]) else e)) k =
      hasKey rl k := by
  induction rl with
  | nil => rfl
  | cons e rest ih =>
    simp only [List.map_cons, hasKey]
    by_cases hec : e.1 = c <;> simp [hec, ih, hasKey]

theorem hasKey_appendResult (valid : List String) (d : ResultDict α) :
    ∀ (rl : ResultLists α) (k : String),
      hasKey (appendResult valid d rl) k = hasKey rl k := by
  induction d with
  | nil => intro rl k; rfl
  | cons kv d' ih =>
    intro rl k
    show hasKey (appendResult valid d'
      (if kv.1 ∈ valid then
        rl.map (fun e => if e.1 = kv.1 then (e.1, e.2 ++ [kv.2]) else e)
      else rl)) k = hasKey rl k
    by_cases hv : kv.1 ∈ valid
    · rw [if_pos hv, ih, hasKey_update]
    · rw [if_neg hv, ih]

theorem listsLookup_appendResult (valid : List String) (d : ResultDict α) :
    ∀ (rl : ResultLists α) (k : String),
      listsLookup (appendResult valid d rl) k =
        if k ∈ valid ∧ hasKey rl k = true then
          listsLookup rl k ++ (d.filter (fun kv => kv.1 = k)).map Prod.snd
        else listsLookup rl k := by
  induction d with
  | nil =>
    intro rl k
    show listsLookup rl k = _
    split <;> simp
  | cons kv d' ih =>
    intro rl k
    show listsLookup (appendResult valid d'
      (if kv.1 ∈ valid then
        rl.map (fun e => if e.1 = kv.1 then (e.1, e.2 ++ [kv.2]) else e)
      else rl)) k = _
    by_cases hv : kv.1 ∈ valid
    · rw [if_pos hv, ih, hasKey_update, listsLookup_update]
      by_cases hkv : k ∈ valid
      · by_cases hhk : hasKey rl k = true
        · rw [if_pos (⟨hkv, hhk⟩ : k ∈ valid ∧ hasKey rl k = true),
            if_pos (⟨hkv, hhk⟩ : k ∈ valid ∧ hasKey rl k = true)]
          by_cases hkk : kv.1 = k
          · rw [if_pos (⟨hkk, hhk⟩ : kv.1 = k ∧ hasKey rl k = true)]
            simp [List.filter_cons, hkk, List.append_assoc]
          · rw [if_neg (fun h : kv.1 = k ∧ hasKey rl k = true => hkk h.1)]
            simp [List.filter_cons, hkk]
        · rw [if_neg (fun h : k ∈ valid ∧ hasKey rl k = true => hhk h.2),
            if_neg (fun h : kv.1 = k ∧ hasKey rl k = true => hhk h.2),
            if_neg (fun h : k ∈ valid ∧ hasKey rl k = true => hhk h.2)]
      · have hkk : ¬ (kv.1 = k) := fun h => hkv (h ▸ hv)
        rw [if_neg (fun h : k ∈ valid ∧ hasKey rl k = true => hkv h.1),
          if_neg (fun h : kv.1 = k ∧ hasKey rl k = true => hkk h.1),
          if_neg (fun h : k ∈ valid ∧ hasKey rl k = true => hkv h.1)]
    · rw [if_neg hv, ih]
      by_cases hcond : k ∈ valid ∧ hasKey rl k = true
      · have hkk : ¬ (kv.1 = k) := fun h => hv (h ▸ hcond.1)
        rw [if_pos hcond, if_pos hcond]
        simp [List.filter_cons, hkk]
      · rw [if_neg hcond, if_neg hcond]

theorem filter_key_length (d : ResultDict α) (k : String)
    (hnd : (d.map Prod.fst).Nodup) :
    ((d.filter (fun kv => kv.1 = k)).map Prod.snd).length =
      if k ∈ d.map Prod.fst then 1 else 0 := by
  induction d with
  | nil => simp
  | cons kv d' ih =>
    simp only [List.map_cons, List.nodup_cons] at hnd
    by_cases hk : kv.1 = k
    · have hnotin : d'.filter (fun kv' => decide (kv'.1 = k)) = [] := by
        rw [List.filter_eq_nil_iff]
        intro a ha
        simp only [decide_eq_true_eq]
        intro hak
        exact hnd.1 (by rw [hk, ← hak]; exact List.mem_map_of_mem Prod.fst ha)
      simp [List.filter_cons, hk, hnotin]
    · simp only [List.filter_cons, decide_eq_true_eq, hk, if_false, ite_false,
        List.map_cons]
      rw [ih hnd.2]
      by_cases hmem : k ∈ d'.map Prod.fst
      · rw [if_pos hmem, if_pos (List.mem_cons_of_mem _ hmem)]
      · rw [if_neg hmem, if_neg (by
          intro hc
          rcases List.mem_cons.mp hc with hc | hc
          · exact hk hc.symm
          · exact hmem hc)]

theorem batchLoop_field_length (stream : Nat → BatchStep α) (valid : List String)
    (hnodup : ∀ i d, stream i = BatchStep.ok d → (d.map Prod.fst).Nodup)
    (k : String) (hkv : k ∈ valid) :
    ∀ (fuel i : Nat) (st : LoopState α), hasKey st.resultLists k = true →
      (listsLookup (batchLoop stream valid fuel i st).1.resultLists k).length =
        (listsLookup st.resultLists k).length + countField stream k i fuel := by
  intro fuel
  induction fuel with
  | zero => intro i st _; simp [batchLoop, countField]
  | succ n ih =>
    intro i st hhk
    cases hs : stream i with
    | outOfRange => simp [batchLoop, countField, hs]
    | invalidArgument =>
      simp only [batchLoop, countField, hs]
      exact ih (i+1) _ hhk
    | ok d =>
      simp only [batchLoop, countField, hs]
      rw [ih (i+1) _ (by rw [hasKey_appendResult]; exact hhk)]
      rw [listsLookup_appendResult, if_pos ⟨hkv, hhk⟩, List.length_append,
        filter_key_length d k (hnodup i d hs)]
      omega

theorem batchLoop_counters (stream : Nat → BatchStep α) (valid : List String) :
    ∀ (fuel i : Nat) (st : LoopState α),
      (batchLoop stream valid fuel i st).1.counters.success =
        st.counters.success + countSuccess stream i fuel ∧
      (batchLoop stream valid fuel i st).1.counters.skipped =
        st.counters.skipped + countSkipped stream i fuel := by
  intro fuel
  induction fuel with
  | zero => intro i st; simp [batchLoop, countSuccess, countSkipped]
  | succ n ih =>
    intro i st
    cases hs : stream i with
    | outOfRange => simp [batchLoop, countSuccess, countSkipped, hs]
    | invalidArgument =>
      simp only [batchLoop, countSuccess, countSkipped, hs]
      obtain ⟨h1, h2⟩ := ih (i+1)
        { st with counters := { st.counters with skipped := st.counters.skipped + 1 } }
      constructor
      · rw [h1]
      · rw [h2]
        show st.counters.skipped + 1 + countSkipped stream (i+1) n =
          st.counters.skipped + (countSkipped stream (i+1) n + 1)
        omega
    | ok d =>
      simp only [batchLoop, countSuccess, countSkipped, hs]
      obtain ⟨h1, h2⟩ := ih (i+1)
        { resultLists := appendResult valid d st.resultLists,
          counters := { st.counters with success := st.counters.success + 1 } }
      constructor
      · rw [h1]
        show st.counters.success + 1 + countSuccess stream (i+1) n =
          st.counters.success + (countSuccess stream (i+1) n + 1)
        omega
      · rw [h2]

theorem count_total (stream : Nat → BatchStep α) :
    ∀ (fuel i : Nat), (∀ j, j < fuel → stream (i + j) ≠ BatchStep.outOfRange) →
      countSuccess stream i fuel + countSkipped stream i fuel = fuel := by
  intro fuel
  induction fuel with
  | zero => intro i _; rfl
  | succ n ih =>
    intro i h
    cases hs : stream i with
    | outOfRange =>
      exact absurd (by rw [Nat.add_zero]; exact hs) (h 0 (by omega))
    | invalidArgument =>
      simp only [countSuccess, countSkipped, hs]
      have := ih (i+1) (fun j hj => by
        rw [show (i+1) + j = i + (j+1) by omega]
        exact h (j+1) (by omega))
      omega
    | ok d =>
      simp only [countSuccess, countSkipped, hs]
      have := ih (i+1) (fun j hj => by
        rw [show (i+1) + j = i + (j+1) by omega]
        exact h (j+1) (by omega))
      omega

theorem countField_eq_success (stream : Nat → BatchStep α) (k : String) :
    ∀ (fuel i : Nat),
      (∀ j d, j < fuel → stream (i + j) = BatchStep.ok d → k ∈ d.map Prod.fst) →
      countField stream k i fuel = countSuccess stream i fuel := by
  intro fuel
  induction fuel with
  | zero => intro i _; rfl
  | succ n ih =>
    intro i h
    cases hs : stream i with
    | outOfRange => simp [countField, countSuccess, hs]
    | invalidArgument =>
      simp only [countField, countSuccess, hs]
      exact ih (i+1) (fun j d hj hsj => h (j+1) d (by omega)
        (by rw [show i + (j+1) = (i+1) + j by omega]; exact hsj))
    | ok d =>
      simp only [countField, countSuccess, hs]
      rw [if_pos (h 0 d (by omega) (by rw [Nat.add_zero]; exact hs))]
      rw [ih (i+1) (fun j d' hj hsj => h (j+1) d' (by omega)
        (by rw [show i + (j+1) = (i+1) + j by omega]; exact hsj))]

theorem hasKey_keyInit (valid : List String) (k : String) (h : k ∈ valid) :
    hasKey (valid.map (fun k' => (k', ([] : List α)))) k = true := by
  induction valid with
  | nil => cases h
  | cons a rest ih =>
    simp only [List.map_cons, hasKey, Bool.or_eq_true]
    rcases List.mem_cons.mp h with rfl | h
    · left; simp
    · right; exact ih h

theorem listsLookup_keyInit (valid : List String) (k : String) :
    listsLookup (valid.map (fun k' => (k', ([] : List α)))) k = [] := by
  induction valid with
  | nil => rfl
  | cons a rest ih =>
    simp only [List.map_cons, listsLookup]
    split <;> simp [ih]

/-- Claim C4: for a pass over `num_batches` batches (no stream exhaustion),
(1) each result field's accumulated sequence length equals the number of
batches that produced a non-empty result for that field; (2) the counters
record exactly the numbers of successful and skipped (caught
`InvalidArgumentError`) batches, processing continuing past each failure;
(3) when no batch hits `OutOfRangeError`, successes = N − K where K is the
number of failing batches, and if every successful batch's result contains
every valid field, each field's sequence has length N − K (= the success
count). -/
theorem claim4 (cfg : RunConfig α)
    (hnodup : ∀ i d, cfg.stream i = BatchStep.ok d → (d.map Prod.fst).Nodup) :
    (∀ k, k ∈ validKeys cfg →
        (listsLookup (accumulatedState cfg).1.resultLists k).length =
          countField cfg.stream k 0 cfg.numBatches) ∧
    ((accumulatedState cfg).1.counters.success =
        countSuccess cfg.stream 0 cfg.numBatches ∧
      (accumulatedState cfg).1.counters.skipped =
        countSkipped cfg.stream 0 cfg.numBatches) ∧
    ((∀ j, j < cfg.numBatches → cfg.stream j ≠ BatchStep.outOfRange) →
      countSuccess cfg.stream 0 cfg.numBatches =
        cfg.numBatches - countSkipped cfg.stream 0 cfg.numBatches ∧
      ((∀ j d, j < cfg.numBatches → cfg.stream j = BatchStep.ok d →
          ∀ k, k ∈ validKeys cfg → k ∈ d.map Prod.fst) →
        ∀ k, k ∈ validKeys cfg →
          (listsLookup (accumulatedState cfg).1.resultLists k).length =
            countSuccess cfg.stream 0 cfg.numBatches)) := by
  have hlen : ∀ k, k ∈ validKeys cfg →
      (listsLookup (accumulatedState cfg).1.resultLists k).length =
        countField cfg.stream k 0 cfg.numBatches := by
    intro k hk
    have h := batchLoop_field_length cfg.stream (validKeys cfg) hnodup k hk
      cfg.numBatches 0 (initLoopState (validKeys cfg)) (hasKey_keyInit _ k hk)
    unfold accumulatedState
    rw [h]
    have h0 : listsLookup (initLoopState (validKeys cfg) :
        LoopState α).resultLists k = [] := listsLookup_keyInit _ k
    rw [h0]
    simp
  refine ⟨hlen, ?_, ?_⟩
  · obtain ⟨h1, h2⟩ := batchLoop_counters cfg.stream (validKeys cfg)
      cfg.numBatches 0 (initLoopState (validKeys cfg))
    unfold accumulatedState
    constructor
    · rw [h1]
      show 0 + countSuccess cfg.stream 0 cfg.numBatches =
        countSuccess cfg.stream 0 cfg.numBatches
      omega
    · rw [h2]
      show 0 + countSkipped cfg.stream 0 cfg.numBatches =
        countSkipped cfg.stream 0 cfg.numBatches
      omega
  · intro hno
    have ht := count_total cfg.stream cfg.numBatches 0
      (fun j hj => by simpa using hno j hj)
    constructor
    · omega
    · intro hfull k hk
      rw [hlen k hk]
      exact countField_eq_success cfg.stream k cfg.numBatches 0
        (fun j d hj hsj => hfull j d (by simpa using hj)
          (by simpa using hsj) k hk)

theorem streamW4_nodup : ∀ (i : Nat) (d : ResultDict Nat),
    streamW4 i = BatchStep.ok d → (d.map Prod.fst).Nodup := by
  intro i d h
  unfold streamW4 at h
  by_cases h0 : i = 0
  · rw [if_pos h0] at h
    injection h with h'
    subst h'
    decide
  · rw [if_neg h0] at h
    by_cases h2 : i = 2
    · rw [if_pos h2] at h
      injection h with h'
      subst h'
      decide
    · rw [if_neg h2] at h
      exact absurd h (by simp)

/-- Witness for claim C4 over `streamW4` (N = 3, K = 1): 2 successes,
1 skip, and both fields accumulate sequences of length 2 = N − K. -/
theorem claim4_witness :
    (accumulatedState runCfgW4).1.counters.success = 2 ∧
    (accumulatedState runCfgW4).1.counters.skipped = 1 ∧
    (listsLookup (accumulatedState runCfgW4).1.resultLists
      "groundtruth_text").length = 2 ∧
    (listsLookup (accumulatedState runCfgW4).1.resultLists
      "recognition_text").length = 2 := by
  have h := claim4 runCfgW4 streamW4_nodup
  refine ⟨?_, ?_, ?_, ?_⟩
  · rw [h.2.1.1]
    decide
  · rw [h.2.1.2]
    decide
  · rw [h.1 "groundtruth_text" (by decide)]
    decide
  · rw [h.1 "recognition_text" (by decide)]
    decide

end EvalUtil

namespace Predict

theorem foldl_files_inner (pfxDir : String) (fns : List String) :
    ∀ acc : List String,
      fns.foldl (fun acc2 filename =>
        if matchesExt filename then acc2 ++ [pfxDir ++ "/" ++ filename] else acc2) acc =
      acc ++ (fns.filter matchesExt).map (fun fn => pfxDir ++ "/" ++ fn) := by
  induction fns with
  | nil => intro acc; simp
  | cons fn rest ih =>
    intro acc
    simp only [List.foldl_cons, List.filter_cons]
    by_cases h : matchesExt fn = true
    · rw [if_pos h, if_pos h, ih]
      simp
    · rw [if_neg h, if_neg h, ih]

theorem get_images_eq (walk : List (String × List String)) :
    get_images walk =
      (walk.map (fun pf =>
        (pf.2.filter matchesExt).map (fun fn => pf.1 ++ "/" ++ fn))).flatten := by
  suffices h : ∀ acc : List String,
      walk.foldl (fun files pf =>
        pf.2.foldl (fun acc2 filename =>
          if matchesExt filename then acc2 ++ [pf.1 ++ "/" ++ filename] else acc2)
          files) acc =
      acc ++ (walk.map (fun pf =>
        (pf.2.filter matchesExt).map (fun fn => pf.1 ++ "/" ++ fn))).flatten by
    simpa [get_images] using h []
  induction walk with
  | nil => intro acc; simp
  | cons pf rest ih =>
    intro acc
    simp only [List.foldl_cons, List.map_cons, List.flatten_cons]
    rw [foldl_files_inner pf.1 pf.2 acc, ih]
    simp [List.append_assoc]

theorem pyEndsWith_iff (s post : String) :
    pyEndsWith s post = true ↔ List.IsSuffix post.data s.data := by
  unfold pyEndsWith
  exact List.isSuffixOf_iff_suffix

theorem get_images_mem (walk : List (String × List String)) (f : String) :
    f ∈ get_images walk ↔
      ∃ pf, pf ∈ walk ∧ ∃ fn, fn ∈ pf.2 ∧
        (∃ ext, ext ∈ exts ∧ List.IsSuffix ext.data fn.data) ∧ f = pf.1 ++ "/" ++ fn := by
  rw [get_images_eq]
  constructor
  · intro hf
    rw [List.mem_flatten] at hf
    obtain ⟨l, hl, hfl⟩ := hf
    rw [List.mem_map] at hl
    obtain ⟨pf, hpf, rfl⟩ := hl
    rw [List.mem_map] at hfl
    obtain ⟨fn, hfn, hout⟩ := hfl
    rw [List.mem_filter] at hfn
    obtain ⟨hfn2, hext⟩ := hfn
    simp only [matchesExt, List.any_eq_true] at hext
    obtain ⟨ext, hin, hend⟩ := hext
    exact ⟨pf, hpf, fn, hfn2, ⟨ext, hin, (pyEndsWith_iff fn ext).mp hend⟩, hout.symm⟩
  · rintro ⟨pf, hpf, fn, hfn, hext, rfl⟩
    rw [List.mem_flatten]
    refine ⟨(pf.2.filter matchesExt).map (fun fn => pf.1 ++ "/" ++ fn), ?_, ?_⟩
    · rw [List.mem_map]
      exact ⟨pf, hpf, rfl⟩
    · rw [List.mem_map]
      refine ⟨fn, ?_, rfl⟩
      rw [List.mem_filter]
      refine ⟨hfn, ?_⟩
      simp only [matchesExt, List.any_eq_true]
      obtain ⟨ext, h1, h2⟩ := hext
      exact ⟨ext, h1, (pyEndsWith_iff fn ext).mpr h2⟩

/-- Claim C9: `get_images` selects, from the recursive directory walk,
exactly the files (in walk order) whose names end with one of the
extensions `jpg`, `png`, `jpeg`, `JPG`; and the predictor's main loop
appends, after the header, exactly one `name,label` CSV row per selected
file, consisting of the file's base name and the recognized text. -/
theorem claim9 (walk : List (String × List String)) (rec : String → String)
    (existing : String) :
    (get_images walk =
      (walk.map (fun pf =>
        (pf.2.filter matchesExt).map (fun fn => pf.1 ++ "/" ++ fn))).flatten) ∧
    (∀ f : String, f ∈ get_images walk ↔
      ∃ pf, pf ∈ walk ∧ ∃ fn, fn ∈ pf.2 ∧
        (∃ ext, ext ∈ exts ∧ List.IsSuffix ext.data fn.data) ∧ f = pf.1 ++ "/" ++ fn) ∧
    (predictMain walk rec existing =
      existing ++ headerLine ++
        String.join ((get_images walk).map (csvLine rec))) ∧
    (∀ im_fn, csvLine rec im_fn = basename im_fn ++ "," ++ rec im_fn ++ "\r\n") ∧
    ((get_images walk).map (csvLine rec)).length = (get_images walk).length :=
  ⟨get_images_eq walk, fun f => get_images_mem walk f, rfl, fun _ => rfl,
   List.length_map _ _⟩

/-- Witness for claim C9 on a concrete walk: `b.txt` is dropped, the two
image files are selected in order. -/
theorem claim9_witness :
    (get_images walkW =
      (walkW.map (fun pf =>
        (pf.2.filter matchesExt).map (fun fn => pf.1 ++ "/" ++ fn))).flatten) ∧
    get_images walkW = ["root/a.jpg", "root/sub/c.png"] :=
  ⟨(claim9 walkW (fun _ => "x") "").1, by rfl⟩

/-- Claim C10: the predictor opens the output CSV in append mode and writes
the header line `name,label` (with CRLF) before any data rows; running the
script a second time against the same output appends a fresh header and the
new data rows after the previous run's content rather than truncating. -/
theorem claim10 (walk : List (String × List String)) (rec : String → String)
    (existing : String) :
    (predictMain walk rec existing =
      existing ++ headerLine ++
        String.join ((get_images walk).map (csvLine rec))) ∧
    headerLine = "name,label" ++ "\r\n" ∧
    (∀ c0 : String, predictMain walk rec (predictMain walk rec c0) =
      (predictMain walk rec c0) ++ headerLine ++
        String.join ((get_images walk).map (csvLine rec))) :=
  ⟨rfl, rfl, fun _ => rfl⟩

/-- Witness for claim C10: a second run on the same concrete walk appends a
fresh header after the first run's output. -/
theorem claim10_witness :
    predictMain walkW (fun _ => "txt") (predictMain walkW (fun _ => "txt") "") =
      (predictMain walkW (fun _ => "txt") "") ++ headerLine ++
        String.join ((get_images walkW).map (csvLine (fun _ => "txt"))) :=
  (claim10 walkW (fun _ => "txt") "").2.2 ""

end Predict

end RMB
